import Mathlib

/-!
Verification of the heads-up poker hand engine in `backend/game_logic.py`
(repository ENIGMA.AI).  The engine is a deterministic state machine over a
two-player table: blind posting, fold/call/raise handling, betting-round
completion, street advancement, and showdown settlement.

Shallow embedding conventions:
* Python `int` is modelled by `Int` (Python integers are unbounded and the
  code performs no overflow-relevant operations; chips can go negative).
* `Optional[str]` is `Option String`.
* The two `Player` entries of `GameState.players` (always `[user, bot]` in
  seat order) are the fields `p0`, `p1`; index arithmetic `(i + 1) % 2`
  from the source is kept literally.
* Methods that can raise `ValueError` / `IndexError` return `Option`;
  `none` models the raised exception.
* The deuces `Evaluator` is an external collaborator; it is a parameter
  `ev : List Card → List Card → Int` (`evaluate(board, hand)`, lower is
  better).
* `random.shuffle` makes the deck an arbitrary permutation; the shuffled
  deck is a parameter.  Python draws with `deck.pop()` (from the tail of
  the list); we keep the deck in draw order, so drawing takes the head.
  Python would raise `IndexError` on an empty deck; that is unreachable
  (a hand consumes at most 12 of the 52 cards) and is modelled by a
  default card.
-/

/-- Card value type (`class Card(BaseModel)`, game_logic.py lines 9-11). -/
structure Card where
  rank : String
  suit : String
deriving DecidableEq, Repr

/-- Per-seat player state (`class Player(BaseModel)`, lines 13-21). -/
structure Player where
  id : String
  chips : Int
  hand : List Card
  current_bet : Int
  has_acted : Bool
  is_all_in : Bool
  folded : Bool
  last_action : Option String
deriving DecidableEq, Repr

/-- Aggregate game snapshot (`class GameState(BaseModel)`, lines 23-36)
together with the engine-owned deck (`PokerGame.deck`), which the Python
code keeps on the engine object next to the state.  `p0`/`p1` are the two
entries of `players` in seat order; the engine always constructs them as
`user` and `bot`. -/
structure GameState where
  game_id : String
  p0 : Player
  p1 : Player
  community_cards : List Card
  pot : Int
  current_stage : String
  current_player_id : Option String
  current_bet_to_match : Int
  last_raiser_id : Option String
  small_blind : Int
  big_blind : Int
  dealer_position : Nat
  winner : Option String
  game_over : Bool
  deck : List Card
deriving DecidableEq, Repr

/-- Seat lookup `players[i % 2]` (the source always indexes with
`% len(self.state.players)` where the length is 2). -/
def GameState.seat (s : GameState) (i : Nat) : Player :=
  if i % 2 = 0 then s.p0 else s.p1

/-- Replace the player at seat `i % 2` (mutation of a `players[...]` entry). -/
def GameState.setSeat (s : GameState) (i : Nat) (p : Player) : GameState :=
  if i % 2 = 0 then { s with p0 := p } else { s with p1 := p }

/-- Seat index of the first player whose id matches, as
`PokerGame._get_player` (lines 116-120) / `players.index(...)` find it;
`none` models the raised `ValueError`. -/
def seatOfId (s : GameState) (pid : String) : Option Nat :=
  if s.p0.id = pid then some 0 else if s.p1.id = pid then some 1 else none

/-- Draw the next card of the deck (Python `deck.pop()`; the deck is kept
in draw order, see the header comment). -/
def drawCard (d : List Card) : Card × List Card :=
  match d with
  | [] => (⟨"2", "s"⟩, [])
  | c :: rest => (c, rest)

/-- The 52-card deck in construction order (lines 42-44 / 88): ranks
outermost, suits innermost.  Any shuffle is a permutation of it; concrete
traces below use this order as one possible shuffle. -/
def stdDeck : List Card :=
  ((["2", "3", "4", "5", "6", "7", "8", "9", "T", "J", "Q", "K", "A"].map
    (fun r => ["s", "h", "d", "c"].map (fun su => (⟨r, su⟩ : Card))))).flatten

/-- Number of non-folded players (`len(active_players)` for
`active_players = [p for p in players if not p.folded]`). -/
def activeCount (s : GameState) : Nat :=
  (if s.p0.folded then 0 else 1) + (if s.p1.folded then 0 else 1)

/-- The non-folded players in seat order. -/
def activePlayers (s : GameState) : List Player :=
  ([s.p0, s.p1]).filter (fun p => !p.folded)

/-- `PokerGame._determine_winner` (lines 185-216).  `ev` is the deuces
evaluator; it is only consulted when nobody folded.  A tie splits the pot
by Python floor division `pot // 2` (`Int.fdiv`). -/
def determine_winner (ev : List Card → List Card → Int) (s : GameState) :
    Option GameState :=
  match seatOfId s "user", seatOfId s "bot" with
  | some ui, some bi =>
    let user := s.seat ui
    let bot := s.seat bi
    if user.folded then
      some { s.setSeat bi { bot with chips := bot.chips + s.pot } with
             winner := some bot.id }
    else if bot.folded then
      some { s.setSeat ui { user with chips := user.chips + s.pot } with
             winner := some user.id }
    else
      let user_score := ev s.community_cards user.hand
      let bot_score := ev s.community_cards bot.hand
      if user_score < bot_score then
        some { s.setSeat ui { user with chips := user.chips + s.pot } with
               winner := some user.id }
      else if bot_score < user_score then
        some { s.setSeat bi { bot with chips := bot.chips + s.pot } with
               winner := some bot.id }
      else
        some { (s.setSeat ui { user with chips := user.chips + Int.fdiv s.pot 2 }).setSeat
                 bi { bot with chips := bot.chips + Int.fdiv s.pot 2 } with
               winner := some "tie" }
  | _, _ => none

/-- `PokerGame._advance_turn` (lines 122-132): if a fold left one active
player the hand ends (stage set to showdown, winner determined),
otherwise the turn passes to the next seat. -/
def advance_turn (ev : List Card → List Card → Int) (s : GameState) :
    Option GameState :=
  if activeCount s = 1 then
    determine_winner ev { s with current_stage := "showdown" }
  else
    match s.current_player_id with
    | none => none
    | some pid =>
      match seatOfId s pid with
      | none => none
      | some i =>
        some { s with current_player_id := some ((s.seat ((i + 1) % 2)).id) }

/-- `PokerGame._is_betting_round_over` (lines 134-152). -/
def is_betting_round_over (s : GameState) : Bool :=
  let active := activePlayers s
  if active.length ≤ 1 then true
  else
    let first_active_player_bet : Int :=
      match active with
      | [] => 0
      | p :: _ => p.current_bet
    let all_acted := active.all (fun p => p.has_acted)
    let all_bets_equal :=
      active.all (fun p => decide (p.current_bet = first_active_player_bet))
    let bb_player := s.seat ((s.dealer_position + 1) % 2)
    let is_bb_option :=
      decide (s.current_bet_to_match = s.big_blind) &&
      decide (s.current_player_id = some bb_player.id) &&
      !bb_player.has_acted
    all_acted && all_bets_equal && !is_bb_option

/-- The ordered stage list `["pre-flop", "flop", "turn", "river", "showdown"]`
as an index lookup; `none` models the `ValueError` of `stages.index`. -/
def stageIndex (st : String) : Option Nat :=
  if st = "pre-flop" then some 0
  else if st = "flop" then some 1
  else if st = "turn" then some 2
  else if st = "river" then some 3
  else if st = "showdown" then some 4
  else none

/-- Name of the stage at a given index of the stage list. -/
def stageOfIndex (i : Nat) : String :=
  if i = 0 then "pre-flop"
  else if i = 1 then "flop"
  else if i = 2 then "turn"
  else if i = 3 then "river"
  else "showdown"

/-- `PokerGame._advance_stage` (lines 154-183): sweep the street (reset
bets and `has_acted` of non-folded players, zero the amount to match,
hand the turn to the dealer seat), move to the next stage, and deal its
cards (burn + 3 for the flop, burn + 1 for turn and river) or resolve the
showdown.  From the last stage it only sets `game_over`. -/
def advance_stage (ev : List Card → List Card → Int) (s : GameState) :
    Option GameState :=
  match stageIndex s.current_stage with
  | none => none
  | some current_stage_index =>
    if 4 ≤ current_stage_index then
      some { s with game_over := true }
    else
      let clear := fun (p : Player) =>
        if p.folded then p else { p with has_acted := false, current_bet := 0 }
      let s := { s with p0 := clear s.p0, p1 := clear s.p1 }
      let s := { s with current_bet_to_match := 0,
                        current_player_id := some ((s.seat s.dealer_position).id),
                        last_raiser_id := none }
      let next_stage := stageOfIndex (current_stage_index + 1)
      let s := { s with current_stage := next_stage }
      if next_stage = "flop" then
        let (_, d1) := drawCard s.deck
        let (c1, d2) := drawCard d1
        let (c2, d3) := drawCard d2
        let (c3, d4) := drawCard d3
        some { s with community_cards := s.community_cards ++ [c1, c2, c3],
                      deck := d4 }
      else if next_stage = "turn" ∨ next_stage = "river" then
        let (_, d1) := drawCard s.deck
        let (c1, d2) := drawCard d1
        some { s with community_cards := s.community_cards ++ [c1], deck := d2 }
      else if next_stage = "showdown" then
        determine_winner ev s
      else
        some s

/-- The verb-application portion of `PokerGame.handle_player_action`
(lines 226-261), acting on the player at seat `i`:
* `fold` marks the player folded;
* `call` moves `min(current_bet_to_match - current_bet, chips)` from the
  stack into the bet and the pot and marks the player acted (labelled
  `Check` when nothing was owed);
* `raise` clamps the requested total to at least
  `current_bet_to_match * 2` and at most `chips + current_bet`, applies
  the delta, updates `current_bet_to_match` and `last_raiser_id`, resets
  `has_acted` of every other player and marks the raiser acted;
* any other verb (including the literal `"check"`) matches no branch and
  changes nothing. -/
def apply_action (s : GameState) (i : Nat) (action : String) (amount : Int) :
    GameState :=
  if action = "fold" then
    s.setSeat i { s.seat i with folded := true, last_action := some "Fold" }
  else if action = "call" then
    let player := s.seat i
    let amount_to_call := s.current_bet_to_match - player.current_bet
    let la : Option String :=
      if 0 < amount_to_call then some "Call" else some "Check"
    let amount_to_call :=
      if player.chips < amount_to_call then player.chips else amount_to_call
    { s.setSeat i
        { player with chips := player.chips - amount_to_call,
                      current_bet := player.current_bet + amount_to_call,
                      has_acted := true,
                      last_action := la } with
      pot := s.pot + amount_to_call }
  else if action = "raise" then
    let player := s.seat i
    let min_raise := s.current_bet_to_match * 2
    let amount := if amount < min_raise then min_raise else amount
    let amount :=
      if player.chips + player.current_bet < amount then
        player.chips + player.current_bet
      else amount
    let amount_to_add := amount - player.current_bet
    let p := { player with
                 chips := player.chips - amount_to_add,
                 current_bet := player.current_bet + amount_to_add,
                 has_acted := true,
                 last_action :=
                   some ("Raise to $" ++ toString (player.current_bet + amount_to_add)) }
    let s := s.setSeat i p
    let s := { s with pot := s.pot + amount_to_add,
                      current_bet_to_match := p.current_bet,
                      last_raiser_id := some p.id }
    let s := if s.p0.id ≠ p.id then { s with p0 := { s.p0 with has_acted := false } } else s
    let s := if s.p1.id ≠ p.id then { s with p1 := { s.p1 with has_acted := false } } else s
    s
  else
    s

/-- `PokerGame.handle_player_action` (lines 218-266): look the player up
(`ValueError` when unknown), reject when it is not that player's turn
(the raise happens before any mutation), clear the other player's
`last_action`, apply the verb, advance the turn (possibly ending the hand
on a fold), and advance the stage when the betting round is over.  There
is no check that the hand is still open: `winner` is never consulted. -/
def handle_player_action (ev : List Card → List Card → Int) (s : GameState)
    (player_id action : String) (amount : Int) : Option GameState :=
  match seatOfId s player_id with
  | none => none
  | some i =>
    if some (s.seat i).id ≠ s.current_player_id then none
    else
      let other_id := if player_id = "user" then "bot" else "user"
      match seatOfId s other_id with
      | none => none
      | some oi =>
        let s := s.setSeat oi { s.seat oi with last_action := none }
        let s := apply_action s i action amount
        match advance_turn ev s with
        | none => none
        | some s2 =>
          if is_betting_round_over s2 then advance_stage ev s2 else some s2

/-- Reset of the per-hand player fields at the top of
`PokerGame._start_new_hand` (lines 76-82). -/
def resetPlayer (p : Player) : Player :=
  { p with hand := [], current_bet := 0, has_acted := false,
           is_all_in := false, folded := false, last_action := none }

/-- `PokerGame._start_new_hand` (lines 71-114): rotate the dealer unless
this is the first hand (`pot > 0` test), reset per-hand fields, rebuild
the (shuffled) deck, deal two cards to the small blind then two to the
big blind, post the blinds, and open the pre-flop street with the small
blind (dealer) to act. -/
def start_new_hand (s : GameState) (freshDeck : List Card) : GameState :=
  let s :=
    if 0 < s.pot then
      { s with dealer_position := (s.dealer_position + 1) % 2 }
    else s
  let s := { s with p0 := resetPlayer s.p0, p1 := resetPlayer s.p1,
                    community_cards := [], pot := 0, winner := none,
                    deck := freshDeck }
  let sbSeat := s.dealer_position
  let bbSeat := (s.dealer_position + 1) % 2
  let (c1, d1) := drawCard s.deck
  let (c2, d2) := drawCard d1
  let (c3, d3) := drawCard d2
  let (c4, d4) := drawCard d3
  let s := { s.setSeat sbSeat { s.seat sbSeat with hand := [c1, c2] } with deck := d4 }
  let s := s.setSeat bbSeat { s.seat bbSeat with hand := [c3, c4] }
  let sb := s.seat sbSeat
  let s := s.setSeat sbSeat
    { sb with chips := sb.chips - s.small_blind, current_bet := s.small_blind }
  let bb := s.seat bbSeat
  let s := s.setSeat bbSeat
    { bb with chips := bb.chips - s.big_blind, current_bet := s.big_blind }
  { s with pot := s.small_blind + s.big_blind,
           current_bet_to_match := s.big_blind,
           current_stage := "pre-flop",
           current_player_id := some (s.seat sbSeat).id,
           last_raiser_id := some (s.seat bbSeat).id }

/-- `PokerGame.__init__` (lines 41-66) followed by the `_start_new_hand`
call it makes: seats `user` and `bot` with the given stacks, fixed blinds
10/20, the supplied dealer seat (the `dealer_pos == -1` case draws it at
random; the drawn value is the parameter here), and the shuffled deck as
a parameter.  There is no validation of the chip arguments. -/
def mkPokerGame (game_id : String) (user_chips bot_chips : Int)
    (dealer_pos : Nat) (shuffled : List Card) : GameState :=
  start_new_hand
    { game_id := game_id
      p0 := { id := "user", chips := user_chips, hand := [], current_bet := 0,
              has_acted := false, is_all_in := false, folded := false,
              last_action := none }
      p1 := { id := "bot", chips := bot_chips, hand := [], current_bet := 0,
              has_acted := false, is_all_in := false, folded := false,
              last_action := none }
      community_cards := []
      pot := 0
      current_stage := "pre-flop"
      current_player_id := none
      current_bet_to_match := 0
      last_raiser_id := none
      small_blind := 10
      big_blind := 20
      dealer_position := dealer_pos
      winner := none
      game_over := false
      deck := shuffled }
    shuffled

/-- Per-street raise cap configured by the training environment
(`MAX_RAISES_PER_STREET = 3`, enigma_env_shaped.py line 15).  The engine
itself keeps no raise counter; this constant exists only in the
environment layer. -/
def MAX_RAISES_PER_STREET : Nat := 3

/-- States reachable inside one hand: the freshly started hand, plus any
state obtained by an accepted action from a reachable state in which the
hand is still open (`winner` unset).  Pot distribution is the last step
of such a trace. -/
inductive Reach (ev : List Card → List Card → Int) (s0 : GameState) :
    GameState → Prop where
  | start : Reach ev s0 s0
  | step {s s2 : GameState} {pid act : String} {amt : Int} :
      Reach ev s0 s → s.winner = none →
      handle_player_action ev s pid act amt = some s2 → Reach ev s0 s2

/-! ### Basic lemmas about seats and lookups -/

@[simp] lemma seat_zero (s : GameState) : s.seat 0 = s.p0 := rfl

@[simp] lemma seat_one (s : GameState) : s.seat 1 = s.p1 := rfl

@[simp] lemma setSeat_zero (s : GameState) (p : Player) :
    s.setSeat 0 p = { s with p0 := p } := rfl

@[simp] lemma setSeat_one (s : GameState) (p : Player) :
    s.setSeat 1 p = { s with p1 := p } := rfl

lemma seatOfId_user {s : GameState} (h0 : s.p0.id = "user") :
    seatOfId s "user" = some 0 := by
  simp [seatOfId, h0]

lemma seatOfId_bot {s : GameState} (h0 : s.p0.id = "user")
    (h1 : s.p1.id = "bot") : seatOfId s "bot" = some 1 := by
  simp [seatOfId, h0, h1]

lemma seatOfId_none {s : GameState} {pid : String} (h0 : s.p0.id = "user")
    (h1 : s.p1.id = "bot") (hu : pid ≠ "user") (hb : pid ≠ "bot") :
    seatOfId s pid = none := by
  have hu' : ¬("user" = pid) := fun h => hu h.symm
  have hb' : ¬("bot" = pid) := fun h => hb h.symm
  simp [seatOfId, h0, h1, hu', hb']

/-! ### Hand invariants

`OpenInv`/`InvA` collect the structural facts that hold in every
reachable state of a hand while it is still open (no chip-sign
assumptions), `OpenB`/`InvB` the chip-sign facts, which additionally
need both starting stacks to cover the big blind. -/

/-- Facts holding whenever the hand is open (`winner` unset): nobody has
folded (a heads-up fold ends the hand at once), the board size matches
the stage, every chip that left a stack is in `pot` (the `current_bet`
fields are bookkeeping duplicates of amounts already counted in `pot`),
and the betting round is not yet settled. -/
structure OpenInv (T : Int) (s : GameState) : Prop where
  nf0 : s.p0.folded = false
  nf1 : s.p1.folded = false
  stageBoard :
    (s.current_stage = "pre-flop" ∧ s.community_cards.length = 0) ∨
    (s.current_stage = "flop" ∧ s.community_cards.length = 3) ∨
    (s.current_stage = "turn" ∧ s.community_cards.length = 4) ∨
    (s.current_stage = "river" ∧ s.community_cards.length = 5)
  consv : s.p0.chips + s.p1.chips + s.pot = T
  notSettled :
    ¬(s.p0.has_acted = true ∧ s.p1.has_acted = true ∧
      s.p0.current_bet = s.p1.current_bet)

/-- Facts holding right after the pot-distribution step that set the
winner: the stage is showdown, the board kept the size it had when the
hand ended, and the chips sum back to the starting total (minus the odd
chip a tie's floor division drops). -/
structure ClosedInv (T : Int) (w : String) (s : GameState) : Prop where
  stage : s.current_stage = "showdown"
  board :
    s.community_cards.length = 0 ∨ s.community_cards.length = 3 ∨
    s.community_cards.length = 4 ∨ s.community_cards.length = 5
  sumWin : w ≠ "tie" → s.p0.chips + s.p1.chips = T
  sumTie : w = "tie" → s.p0.chips + s.p1.chips = T - Int.fmod s.pot 2

/-- Structural invariant of reachable states. -/
structure InvA (T : Int) (s : GameState) : Prop where
  id0 : s.p0.id = "user"
  id1 : s.p1.id = "bot"
  openInv : s.winner = none → OpenInv T s
  closedInv : ∀ w, s.winner = some w → ClosedInv T w s

/-- Chip-sign facts of open states: bets and the amount to match are
non-negative, the amount to match never exceeds the highest bet on the
table, and the pot covers both live bets. -/
structure OpenB (s : GameState) : Prop where
  bet0 : 0 ≤ s.p0.current_bet
  bet1 : 0 ≤ s.p1.current_bet
  cbtm0 : 0 ≤ s.current_bet_to_match
  cbtmLe : s.current_bet_to_match ≤ max s.p0.current_bet s.p1.current_bet
  potGe : s.p0.current_bet + s.p1.current_bet ≤ s.pot

/-- Chip-sign invariant of reachable states (holds when both starting
stacks cover the big blind): stacks never go negative. -/
structure InvB (s : GameState) : Prop where
  chips0 : 0 ≤ s.p0.chips
  chips1 : 0 ≤ s.p1.chips
  openB : s.winner = none → OpenB s

/-- Characterization of `_is_betting_round_over` when both players are
still in the hand: every player acted, the bets agree, and the pre-flop
big-blind option is not pending. -/
lemma is_over_char {s : GameState} (h0 : s.p0.folded = false)
    (h1 : s.p1.folded = false) :
    is_betting_round_over s = true ↔
      (s.p0.has_acted = true ∧ s.p1.has_acted = true ∧
       s.p1.current_bet = s.p0.current_bet ∧
       ¬(s.current_bet_to_match = s.big_blind ∧
         s.current_player_id = some ((s.seat ((s.dealer_position + 1) % 2)).id) ∧
         (s.seat ((s.dealer_position + 1) % 2)).has_acted = false)) := by
  rcases Nat.mod_two_eq_zero_or_one (s.dealer_position + 1) with hd | hd <;>
    cases ha0 : s.p0.has_acted <;> cases ha1 : s.p1.has_acted <;>
    simp_all [is_betting_round_over, activePlayers, GameState.seat]

/-- Behaviour of `_determine_winner`: it always sets a winner, moves the
pot (or its floor half on a tie) onto the winning stack(s), and touches
nothing else that the invariants watch. -/
lemma determine_winner_spec {ev : List Card → List Card → Int}
    {s s2 : GameState} (h0 : s.p0.id = "user") (h1 : s.p1.id = "bot")
    (hd : determine_winner ev s = some s2) :
    (∃ w, s2.winner = some w ∧
      ((w ≠ "tie" ∧ s2.p0.chips + s2.p1.chips = s.p0.chips + s.p1.chips + s.pot) ∨
       (w = "tie" ∧ s2.p0.chips + s2.p1.chips =
          s.p0.chips + s.p1.chips + s.pot - Int.fmod s.pot 2))) ∧
    s2.p0.id = "user" ∧ s2.p1.id = "bot" ∧
    s2.current_stage = s.current_stage ∧
    s2.community_cards = s.community_cards ∧
    s2.pot = s.pot ∧
    (0 ≤ s.pot → s.p0.chips ≤ s2.p0.chips ∧ s.p1.chips ≤ s2.p1.chips) := by
  have hfd : 2 * Int.fdiv s.pot 2 + Int.fmod s.pot 2 = s.pot :=
    Int.fdiv_add_fmod s.pot 2
  have hfdnn : 0 ≤ s.pot → 0 ≤ Int.fdiv s.pot 2 := fun h =>
    Int.fdiv_nonneg h (by omega)
  rw [determine_winner, seatOfId_user h0, seatOfId_bot h0 h1] at hd
  simp only [seat_zero, seat_one, setSeat_zero, setSeat_one] at hd
  split_ifs at hd with hf0 hf1 hlt hgt
  · -- user folded, bot wins
    cases hd
    refine ⟨⟨"bot", by simp [h1], Or.inl ⟨by decide, by simp; omega⟩⟩, ?_⟩
    simp [h0, h1]
  · cases hd
    refine ⟨⟨"user", by simp [h0], Or.inl ⟨by decide, by simp; omega⟩⟩, ?_⟩
    simp [h0, h1]
  · cases hd
    refine ⟨⟨"user", by simp [h0], Or.inl ⟨by decide, by simp; omega⟩⟩, ?_⟩
    simp [h0, h1]
  · cases hd
    refine ⟨⟨"bot", by simp [h1], Or.inl ⟨by decide, by simp; omega⟩⟩, ?_⟩
    simp [h0, h1]
  · cases hd
    refine ⟨⟨"tie", by simp, Or.inr ⟨rfl, by simp; omega⟩⟩, ?_⟩
    refine ⟨h0, h1, rfl, rfl, rfl, fun hp => ?_⟩
    have := hfdnn hp
    constructor <;> simp <;> omega

/-- Shared tail of `handle_player_action` for actions that do not end the
hand by fold: after the turn was advanced, the stage advances exactly when
the betting round is over.  From the structural facts of the intermediate
state this produces the structural invariant of the result, and, under the
chip-sign facts, also the chip-sign invariant. -/
lemma finish_step {ev : List Card → List Card → Int} {T : Int}
    {s1 s2 : GameState}
    (id0 : s1.p0.id = "user") (id1 : s1.p1.id = "bot")
    (hw : s1.winner = none)
    (nf0 : s1.p0.folded = false) (nf1 : s1.p1.folded = false)
    (hsb : (s1.current_stage = "pre-flop" ∧ s1.community_cards.length = 0) ∨
           (s1.current_stage = "flop" ∧ s1.community_cards.length = 3) ∨
           (s1.current_stage = "turn" ∧ s1.community_cards.length = 4) ∨
           (s1.current_stage = "river" ∧ s1.community_cards.length = 5))
    (hcv : s1.p0.chips + s1.p1.chips + s1.pot = T)
    (hfin : (if is_betting_round_over s1 then advance_stage ev s1
             else some s1) = some s2) :
    InvA T s2 ∧
    (0 ≤ s1.p0.chips → 0 ≤ s1.p1.chips →
     0 ≤ s1.p0.current_bet → 0 ≤ s1.p1.current_bet →
     0 ≤ s1.current_bet_to_match →
     s1.current_bet_to_match ≤ max s1.p0.current_bet s1.p1.current_bet →
     s1.p0.current_bet + s1.p1.current_bet ≤ s1.pot →
     InvB s2) := by
  by_cases hio : is_betting_round_over s1 = true
  · -- the betting round closed: the stage advances
    rw [if_pos hio] at hfin
    rcases hsb with ⟨hst, hlen⟩ | ⟨hst, hlen⟩ | ⟨hst, hlen⟩ | ⟨hst, hlen⟩
    · -- pre-flop → flop: burn one, reveal three
      rw [advance_stage, hst] at hfin
      rcases hd1 : drawCard s1.deck with ⟨b1, d1⟩
      rcases hd2 : drawCard d1 with ⟨c1, d2⟩
      rcases hd3 : drawCard d2 with ⟨c2, d3⟩
      rcases hd4 : drawCard d3 with ⟨c3, d4⟩
      simp [stageIndex, stageOfIndex, hd1, hd2, hd3, hd4, nf0, nf1] at hfin
      subst hfin
      constructor
      · exact ⟨by simp [id0], by simp [id1],
          fun _ => ⟨by simp [nf0], by simp [nf1],
            Or.inr (Or.inl (by simp [hlen])), by simp; omega, by simp⟩,
          fun w hww => by simp [hw] at hww⟩
      · intro hc0 hc1 hb0 hb1 hcb hle hpot
        exact ⟨by simpa using hc0, by simpa using hc1,
          fun _ => ⟨by simp, by simp, by simp, by simp, by simp; omega⟩⟩
    · -- flop → turn: burn one, reveal one
      rw [advance_stage, hst] at hfin
      rcases hd1 : drawCard s1.deck with ⟨b1, d1⟩
      rcases hd2 : drawCard d1 with ⟨c1, d2⟩
      simp [stageIndex, stageOfIndex, hd1, hd2, nf0, nf1] at hfin
      subst hfin
      constructor
      · exact ⟨by simp [id0], by simp [id1],
          fun _ => ⟨by simp [nf0], by simp [nf1],
            Or.inr (Or.inr (Or.inl (by simp [hlen]))), by simp; omega, by simp⟩,
          fun w hww => by simp [hw] at hww⟩
      · intro hc0 hc1 hb0 hb1 hcb hle hpot
        exact ⟨by simpa using hc0, by simpa using hc1,
          fun _ => ⟨by simp, by simp, by simp, by simp, by simp; omega⟩⟩
    · -- turn → river: burn one, reveal one
      rw [advance_stage, hst] at hfin
      rcases hd1 : drawCard s1.deck with ⟨b1, d1⟩
      rcases hd2 : drawCard d1 with ⟨c1, d2⟩
      simp [stageIndex, stageOfIndex, hd1, hd2, nf0, nf1] at hfin
      subst hfin
      constructor
      · exact ⟨by simp [id0], by simp [id1],
          fun _ => ⟨by simp [nf0], by simp [nf1],
            Or.inr (Or.inr (Or.inr (by simp [hlen]))), by simp; omega, by simp⟩,
          fun w hww => by simp [hw] at hww⟩
      · intro hc0 hc1 hb0 hb1 hcb hle hpot
        exact ⟨by simpa using hc0, by simpa using hc1,
          fun _ => ⟨by simp, by simp, by simp, by simp, by simp; omega⟩⟩
    · -- river → showdown: sweep the street and resolve the showdown
      rw [advance_stage, hst] at hfin
      simp [stageIndex, stageOfIndex, nf0, nf1] at hfin
      obtain ⟨⟨w, hww, hsum⟩, hi0, hi1, hstg, hcc, hpot2, hmono⟩ :=
        determine_winner_spec (by simp [id0]) (by simp [id1]) hfin
      simp only at hstg hcc hpot2 hsum hmono
      constructor
      · refine ⟨hi0, hi1, fun hnone => ?_, fun w' hww' => ?_⟩
        · rw [hww] at hnone
          cases hnone
        · rw [hww] at hww'
          cases hww'
          refine ⟨by rw [hstg], by rw [hcc]; right; right; right; exact hlen, ?_, ?_⟩
          · intro hwt
            rcases hsum with ⟨-, hs⟩ | ⟨ht, -⟩
            · omega
            · exact absurd ht hwt
          · intro hwt
            rcases hsum with ⟨ht, -⟩ | ⟨-, hs⟩
            · exact absurd hwt ht
            · rw [hpot2]
              omega
      · intro hc0 hc1 hb0 hb1 hcb hle hpot
        have hpp : (0 : Int) ≤ s1.pot := by omega
        have hmono2 := hmono (by simpa using hpp)
        simp only at hmono2
        obtain ⟨hm0, hm1⟩ := hmono2
        exact ⟨by omega, by omega,
          fun hnone => by rw [hww] at hnone; cases hnone⟩
  · -- round still open: nothing more happens
    rw [if_neg hio] at hfin
    rw [Option.some.injEq] at hfin
    subst hfin
    have hns : ¬(s1.p0.has_acted = true ∧ s1.p1.has_acted = true ∧
        s1.p0.current_bet = s1.p1.current_bet) := by
      rintro ⟨a0, a1, beq⟩
      apply hio
      rw [is_over_char nf0 nf1]
      refine ⟨a0, a1, beq.symm, ?_⟩
      rintro ⟨-, -, hbf⟩
      rcases Nat.mod_two_eq_zero_or_one (s1.dealer_position + 1) with hd | hd <;>
        simp only [GameState.seat, hd] at hbf <;> simp_all
    refine ⟨⟨id0, id1, fun _ => ⟨nf0, nf1, ?_, hcv, hns⟩,
      fun w hww => by simp [hw] at hww⟩, ?_⟩
    · exact hsb
    · intro hc0 hc1 hb0 hb1 hcb hle hpot
      exact ⟨hc0, hc1, fun _ => ⟨hb0, hb1, hcb, hle, hpot⟩⟩

lemma advance_turn_both_active {ev : List Card → List Card → Int}
    {s : GameState} {pid : String} {i : Nat}
    (hnf0 : s.p0.folded = false) (hnf1 : s.p1.folded = false)
    (hcp : s.current_player_id = some pid) (hseat : seatOfId s pid = some i) :
    advance_turn ev s =
      some { s with current_player_id := some ((s.seat ((i + 1) % 2)).id) } := by
  rw [advance_turn]
  simp [activeCount, hnf0, hnf1, hcp, hseat]

lemma advance_turn_p0_folded {ev : List Card → List Card → Int}
    {s : GameState} (hf : s.p0.folded = true) (hnf : s.p1.folded = false) :
    advance_turn ev s =
      determine_winner ev { s with current_stage := "showdown" } := by
  rw [advance_turn]
  simp [activeCount, hf, hnf]

lemma advance_turn_p1_folded {ev : List Card → List Card → Int}
    {s : GameState} (hnf : s.p0.folded = false) (hf : s.p1.folded = true) :
    advance_turn ev s =
      determine_winner ev { s with current_stage := "showdown" } := by
  rw [advance_turn]
  simp [activeCount, hf, hnf]

lemma determine_winner_user_folded {ev : List Card → List Card → Int}
    {s : GameState} (h0 : s.p0.id = "user") (h1 : s.p1.id = "bot")
    (hf : s.p0.folded = true) :
    determine_winner ev s =
      some { s with p1 := { s.p1 with chips := s.p1.chips + s.pot },
                    winner := some s.p1.id } := by
  rw [determine_winner, seatOfId_user h0, seatOfId_bot h0 h1]
  simp [hf]

lemma determine_winner_bot_folded {ev : List Card → List Card → Int}
    {s : GameState} (h0 : s.p0.id = "user") (h1 : s.p1.id = "bot")
    (hnf : s.p0.folded = false) (hf : s.p1.folded = true) :
    determine_winner ev s =
      some { s with p0 := { s.p0 with chips := s.p0.chips + s.pot },
                    winner := some s.p0.id } := by
  rw [determine_winner, seatOfId_user h0, seatOfId_bot h0 h1]
  simp [hnf, hf]

lemma apply_action_fold (s : GameState) (i : Nat) (amt : Int) :
    apply_action s i "fold" amt =
      s.setSeat i
        { s.seat i with folded := true, last_action := some "Fold" } := by
  simp [apply_action]

lemma apply_action_other {act : String} (s : GameState) (i : Nat) (amt : Int)
    (h1 : act ≠ "fold") (h2 : act ≠ "call") (h3 : act ≠ "raise") :
    apply_action s i act amt = s := by
  simp [apply_action, h1, h2, h3]

lemma apply_action_call_zero (s : GameState) (amt : Int) :
    apply_action s 0 "call" amt =
      { s with
        p0 := { s.p0 with
          chips := s.p0.chips -
            (if s.p0.chips < s.current_bet_to_match - s.p0.current_bet
             then s.p0.chips else s.current_bet_to_match - s.p0.current_bet),
          current_bet := s.p0.current_bet +
            (if s.p0.chips < s.current_bet_to_match - s.p0.current_bet
             then s.p0.chips else s.current_bet_to_match - s.p0.current_bet),
          has_acted := true,
          last_action :=
            if 0 < s.current_bet_to_match - s.p0.current_bet
            then some "Call" else some "Check" },
        pot := s.pot +
          (if s.p0.chips < s.current_bet_to_match - s.p0.current_bet
           then s.p0.chips else s.current_bet_to_match - s.p0.current_bet) } := by
  simp [apply_action]

lemma apply_action_call_one (s : GameState) (amt : Int) :
    apply_action s 1 "call" amt =
      { s with
        p1 := { s.p1 with
          chips := s.p1.chips -
            (if s.p1.chips < s.current_bet_to_match - s.p1.current_bet
             then s.p1.chips else s.current_bet_to_match - s.p1.current_bet),
          current_bet := s.p1.current_bet +
            (if s.p1.chips < s.current_bet_to_match - s.p1.current_bet
             then s.p1.chips else s.current_bet_to_match - s.p1.current_bet),
          has_acted := true,
          last_action :=
            if 0 < s.current_bet_to_match - s.p1.current_bet
            then some "Call" else some "Check" },
        pot := s.pot +
          (if s.p1.chips < s.current_bet_to_match - s.p1.current_bet
           then s.p1.chips else s.current_bet_to_match - s.p1.current_bet) } := by
  simp [apply_action]

lemma apply_action_raise_zero (s : GameState) (amt : Int)
    (h01 : s.p1.id ≠ s.p0.id) :
    apply_action s 0 "raise" amt =
      { s with
        p0 := { s.p0 with
          chips := s.p0.chips -
            ((if s.p0.chips + s.p0.current_bet <
                 (if amt < s.current_bet_to_match * 2
                  then s.current_bet_to_match * 2 else amt)
              then s.p0.chips + s.p0.current_bet
              else (if amt < s.current_bet_to_match * 2
                    then s.current_bet_to_match * 2 else amt)) -
             s.p0.current_bet),
          current_bet := s.p0.current_bet +
            ((if s.p0.chips + s.p0.current_bet <
                 (if amt < s.current_bet_to_match * 2
                  then s.current_bet_to_match * 2 else amt)
              then s.p0.chips + s.p0.current_bet
              else (if amt < s.current_bet_to_match * 2
                    then s.current_bet_to_match * 2 else amt)) -
             s.p0.current_bet),
          has_acted := true,
          last_action := some ("Raise to $" ++
            toString (s.p0.current_bet +
              ((if s.p0.chips + s.p0.current_bet <
                   (if amt < s.current_bet_to_match * 2
                    then s.current_bet_to_match * 2 else amt)
                then s.p0.chips + s.p0.current_bet
                else (if amt < s.current_bet_to_match * 2
                      then s.current_bet_to_match * 2 else amt)) -
               s.p0.current_bet))) },
        p1 := { s.p1 with has_acted := false },
        pot := s.pot +
          ((if s.p0.chips + s.p0.current_bet <
               (if amt < s.current_bet_to_match * 2
                then s.current_bet_to_match * 2 else amt)
            then s.p0.chips + s.p0.current_bet
            else (if amt < s.current_bet_to_match * 2
                  then s.current_bet_to_match * 2 else amt)) -
           s.p0.current_bet),
        current_bet_to_match := s.p0.current_bet +
          ((if s.p0.chips + s.p0.current_bet <
               (if amt < s.current_bet_to_match * 2
                then s.current_bet_to_match * 2 else amt)
            then s.p0.chips + s.p0.current_bet
            else (if amt < s.current_bet_to_match * 2
                  then s.current_bet_to_match * 2 else amt)) -
           s.p0.current_bet),
        last_raiser_id := some s.p0.id } := by
  simp [apply_action, h01]

lemma apply_action_raise_one (s : GameState) (amt : Int)
    (h01 : s.p0.id ≠ s.p1.id) :
    apply_action s 1 "raise" amt =
      { s with
        p1 := { s.p1 with
          chips := s.p1.chips -
            ((if s.p1.chips + s.p1.current_bet <
                 (if amt < s.current_bet_to_match * 2
                  then s.current_bet_to_match * 2 else amt)
              then s.p1.chips + s.p1.current_bet
              else (if amt < s.current_bet_to_match * 2
                    then s.current_bet_to_match * 2 else amt)) -
             s.p1.current_bet),
          current_bet := s.p1.current_bet +
            ((if s.p1.chips + s.p1.current_bet <
                 (if amt < s.current_bet_to_match * 2
                  then s.current_bet_to_match * 2 else amt)
              then s.p1.chips + s.p1.current_bet
              else (if amt < s.current_bet_to_match * 2
                    then s.current_bet_to_match * 2 else amt)) -
             s.p1.current_bet),
          has_acted := true,
          last_action := some ("Raise to $" ++
            toString (s.p1.current_bet +
              ((if s.p1.chips + s.p1.current_bet <
                   (if amt < s.current_bet_to_match * 2
                    then s.current_bet_to_match * 2 else amt)
                then s.p1.chips + s.p1.current_bet
                else (if amt < s.current_bet_to_match * 2
                      then s.current_bet_to_match * 2 else amt)) -
               s.p1.current_bet))) },
        p0 := { s.p0 with has_acted := false },
        pot := s.pot +
          ((if s.p1.chips + s.p1.current_bet <
               (if amt < s.current_bet_to_match * 2
                then s.current_bet_to_match * 2 else amt)
            then s.p1.chips + s.p1.current_bet
            else (if amt < s.current_bet_to_match * 2
                  then s.current_bet_to_match * 2 else amt)) -
           s.p1.current_bet),
        current_bet_to_match := s.p1.current_bet +
          ((if s.p1.chips + s.p1.current_bet <
               (if amt < s.current_bet_to_match * 2
                then s.current_bet_to_match * 2 else amt)
            then s.p1.chips + s.p1.current_bet
            else (if amt < s.current_bet_to_match * 2
                  then s.current_bet_to_match * 2 else amt)) -
           s.p1.current_bet),
        last_raiser_id := some s.p1.id } := by
  simp [apply_action, h01]

lemma advance_turn_user {ev : List Card → List Card → Int} {s : GameState}
    (hnf0 : s.p0.folded = false) (hnf1 : s.p1.folded = false)
    (id0 : s.p0.id = "user") (hcp : s.current_player_id = some "user") :
    advance_turn ev s = some { s with current_player_id := some s.p1.id } := by
  rw [advance_turn_both_active hnf0 hnf1 hcp (seatOfId_user id0)]
  rfl

lemma advance_turn_bot {ev : List Card → List Card → Int} {s : GameState}
    (hnf0 : s.p0.folded = false) (hnf1 : s.p1.folded = false)
    (id0 : s.p0.id = "user") (id1 : s.p1.id = "bot")
    (hcp : s.current_player_id = some "bot") :
    advance_turn ev s = some { s with current_player_id := some s.p0.id } := by
  rw [advance_turn_both_active hnf0 hnf1 hcp (seatOfId_bot id0 id1)]
  rfl

/-- One accepted action taken from an open reachable state preserves the
structural invariant, and the chip-sign invariant when it held before. -/
lemma step_inv {ev : List Card → List Card → Int} {T : Int}
    {s s2 : GameState} {pid act : String} {amt : Int}
    (hA : InvA T s) (hw : s.winner = none)
    (hs : handle_player_action ev s pid act amt = some s2) :
    InvA T s2 ∧ (InvB s → InvB s2) := by
  obtain ⟨id0, id1, hopen, -⟩ := hA
  obtain ⟨nf0, nf1, hsb, hcv, hns⟩ := hopen hw
  rw [handle_player_action] at hs
  by_cases hpu : pid = "user"
  · subst hpu
    rw [seatOfId_user id0] at hs
    simp only [seat_zero, id0] at hs
    split at hs
    · exact absurd hs (by simp)
    rename_i hcp0
    push_neg at hcp0
    have hcp : s.current_player_id = some "user" := hcp0.symm
    simp only [if_true, seatOfId_bot id0 id1, seat_one, setSeat_one] at hs
    by_cases hfold : act = "fold"
    · -- user folds: bot wins the pot at once, hand closes
      subst hfold
      rw [apply_action_fold] at hs
      simp only [seat_zero, setSeat_zero] at hs
      simp only [advance_turn_p0_folded, nf1, determine_winner_user_folded,
        id0, id1] at hs
      simp [is_betting_round_over, activePlayers, nf1, advance_stage,
        stageIndex] at hs
      subst hs
      constructor
      · refine ⟨by simp [id0], by simp [id1], fun hnone => by simp at hnone,
          fun w hww => ?_⟩
        simp [id1] at hww
        subst hww
        refine ⟨by simp, ?_, fun hwt => by simp; omega,
          fun hwt => by simp at hwt⟩
        rcases hsb with ⟨-, hl⟩ | ⟨-, hl⟩ | ⟨-, hl⟩ | ⟨-, hl⟩ <;> simp [hl]
      · intro hB
        obtain ⟨hc0, hc1, hob⟩ := hB
        obtain ⟨hb0, hb1, hcb, hle, hpot⟩ := hob hw
        exact ⟨by simpa using hc0, by simp; omega,
          fun hnone => by simp at hnone⟩
    · by_cases hcall : act = "call"
      · -- user calls (or checks via a zero-amount call)
        subst hcall
        rw [apply_action_call_zero] at hs
        simp only [advance_turn_user, nf0, nf1, id0, hcp] at hs
        have hfs := fun a b c d e f g =>
          @finish_step ev T _ _ a b c d e f g hs
        obtain ⟨hA2, hB2⟩ := hfs (by simpa using id0) (by simpa using id1)
          (by simpa using hw) (by simpa using nf0) (by simpa using nf1)
          (by simpa using hsb) (by simp; omega)
        refine ⟨hA2, fun hB => ?_⟩
        obtain ⟨hc0, hc1, hob⟩ := hB
        obtain ⟨hb0, hb1, hcb, hle, hpot⟩ := hob hw
        exact hB2 (by simp; split_ifs <;> omega) (by simpa using hc1)
          (by simp; split_ifs <;> omega) (by simpa using hb1)
          (by simpa using hcb) (by simp; split_ifs <;> omega)
          (by simp; split_ifs <;> omega)
      · by_cases hraise : act = "raise"
        · -- user raises: the requested total is clamped and applied
          subst hraise
          rw [apply_action_raise_zero _ _ (by rw [id0, id1]; decide)] at hs
          simp only [advance_turn_user, nf0, nf1, id0, hcp] at hs
          have hfs := fun a b c d e f g =>
            @finish_step ev T _ _ a b c d e f g hs
          obtain ⟨hA2, hB2⟩ := hfs (by simpa using id0) (by simpa using id1)
            (by simpa using hw) (by simpa using nf0) (by simpa using nf1)
            (by simpa using hsb) (by simp; omega)
          refine ⟨hA2, fun hB => ?_⟩
          obtain ⟨hc0, hc1, hob⟩ := hB
          obtain ⟨hb0, hb1, hcb, hle, hpot⟩ := hob hw
          exact hB2 (by simp; split_ifs <;> omega) (by simpa using hc1)
            (by simp; split_ifs <;> omega) (by simpa using hb1)
            (by simp; split_ifs <;> omega) (by simp)
            (by simp; split_ifs <;> omega)
        · -- any other verb (including the literal "check") changes nothing
          rw [apply_action_other _ _ _ hfold hcall hraise] at hs
          simp only [advance_turn_user, nf0, nf1, id0, hcp] at hs
          have hfs := fun a b c d e f g =>
            @finish_step ev T _ _ a b c d e f g hs
          obtain ⟨hA2, hB2⟩ := hfs (by simpa using id0) (by simpa using id1)
            (by simpa using hw) (by simpa using nf0) (by simpa using nf1)
            (by simpa using hsb) (by simpa using hcv)
          refine ⟨hA2, fun hB => ?_⟩
          obtain ⟨hc0, hc1, hob⟩ := hB
          obtain ⟨hb0, hb1, hcb, hle, hpot⟩ := hob hw
          exact hB2 (by simpa using hc0) (by simpa using hc1)
            (by simpa using hb0) (by simpa using hb1)
            (by simpa using hcb) (by simpa using hle) (by simpa using hpot)
  · by_cases hpb : pid = "bot"
    · subst hpb
      rw [seatOfId_bot id0 id1] at hs
      simp only [seat_one, id1] at hs
      split at hs
      · exact absurd hs (by simp)
      rename_i hcp0
      push_neg at hcp0
      have hcp : s.current_player_id = some "bot" := hcp0.symm
      rw [seatOfId_user id0] at hs
      simp only [seat_zero, setSeat_zero] at hs
      by_cases hfold : act = "fold"
      · -- bot folds: user wins the pot at once, hand closes
        subst hfold
        rw [apply_action_fold] at hs
        simp only [seat_one, setSeat_one] at hs
        simp only [advance_turn_p1_folded, nf0, determine_winner_bot_folded,
          id0, id1] at hs
        simp [is_betting_round_over, activePlayers, nf0, advance_stage,
          stageIndex] at hs
        subst hs
        constructor
        · refine ⟨by simp [id0], by simp [id1], fun hnone => by simp at hnone,
            fun w hww => ?_⟩
          simp [id0] at hww
          subst hww
          refine ⟨by simp, ?_, fun hwt => by simp; omega,
            fun hwt => by simp at hwt⟩
          rcases hsb with ⟨-, hl⟩ | ⟨-, hl⟩ | ⟨-, hl⟩ | ⟨-, hl⟩ <;> simp [hl]
        · intro hB
          obtain ⟨hc0, hc1, hob⟩ := hB
          obtain ⟨hb0, hb1, hcb, hle, hpot⟩ := hob hw
          exact ⟨by simp; omega, by simpa using hc1,
            fun hnone => by simp at hnone⟩
      · by_cases hcall : act = "call"
        · -- bot calls (or checks via a zero-amount call)
          subst hcall
          rw [apply_action_call_one] at hs
          simp only [advance_turn_bot, nf0, nf1, id0, id1, hcp] at hs
          have hfs := fun a b c d e f g =>
            @finish_step ev T _ _ a b c d e f g hs
          obtain ⟨hA2, hB2⟩ := hfs (by simpa using id0) (by simpa using id1)
            (by simpa using hw) (by simpa using nf0) (by simpa using nf1)
            (by simpa using hsb) (by simp; omega)
          refine ⟨hA2, fun hB => ?_⟩
          obtain ⟨hc0, hc1, hob⟩ := hB
          obtain ⟨hb0, hb1, hcb, hle, hpot⟩ := hob hw
          exact hB2 (by simpa using hc0) (by simp; split_ifs <;> omega)
            (by simpa using hb0) (by simp; split_ifs <;> omega)
            (by simpa using hcb) (by simp; split_ifs <;> omega)
            (by simp; split_ifs <;> omega)
        · by_cases hraise : act = "raise"
          · -- bot raises: the requested total is clamped and applied
            subst hraise
            rw [apply_action_raise_one _ _ (by rw [id0, id1]; decide)] at hs
            simp only [advance_turn_bot, nf0, nf1, id0, id1, hcp] at hs
            have hfs := fun a b c d e f g =>
              @finish_step ev T _ _ a b c d e f g hs
            obtain ⟨hA2, hB2⟩ := hfs (by simpa using id0) (by simpa using id1)
              (by simpa using hw) (by simpa using nf0) (by simpa using nf1)
              (by simpa using hsb) (by simp; omega)
            refine ⟨hA2, fun hB => ?_⟩
            obtain ⟨hc0, hc1, hob⟩ := hB
            obtain ⟨hb0, hb1, hcb, hle, hpot⟩ := hob hw
            exact hB2 (by simpa using hc0) (by simp; split_ifs <;> omega)
              (by simpa using hb0) (by simp; split_ifs <;> omega)
              (by simp; split_ifs <;> omega) (by simp)
              (by simp; split_ifs <;> omega)
          · -- any other verb (including the literal "check") changes nothing
            rw [apply_action_other _ _ _ hfold hcall hraise] at hs
            simp only [advance_turn_bot, nf0, nf1, id0, id1, hcp] at hs
            have hfs := fun a b c d e f g =>
              @finish_step ev T _ _ a b c d e f g hs
            obtain ⟨hA2, hB2⟩ := hfs (by simpa using id0) (by simpa using id1)
              (by simpa using hw) (by simpa using nf0) (by simpa using nf1)
              (by simpa using hsb) (by simpa using hcv)
            refine ⟨hA2, fun hB => ?_⟩
            obtain ⟨hc0, hc1, hob⟩ := hB
            obtain ⟨hb0, hb1, hcb, hle, hpot⟩ := hob hw
            exact hB2 (by simpa using hc0) (by simpa using hc1)
              (by simpa using hb0) (by simpa using hb1)
              (by simpa using hcb) (by simpa using hle) (by simpa using hpot)
    · rw [seatOfId_none id0 id1 hpu hpb] at hs
      exact absurd hs (by simp)

/-- The freshly started hand satisfies the structural invariant, and the
chip-sign invariant when both starting stacks cover the big blind. -/
lemma mkPokerGame_inv (gid : String) (uc bc : Int) (dealer : Nat)
    (deck : List Card) :
    InvA (uc + bc) (mkPokerGame gid uc bc dealer deck) ∧
    (20 ≤ uc → 20 ≤ bc → InvB (mkPokerGame gid uc bc dealer deck)) := by
  rcases Nat.mod_two_eq_zero_or_one dealer with hd | hd
  · have hd1 : (dealer + 1) % 2 = 1 := by omega
    constructor
    · refine ⟨?_, ?_, fun _ => ⟨?_, ?_, ?_, ?_, ?_⟩, fun w hww => ?_⟩ <;>
        simp [mkPokerGame, start_new_hand, resetPlayer, GameState.setSeat,
          GameState.seat, hd, hd1] at * <;> omega
    · intro h1 h2
      refine ⟨?_, ?_, fun _ => ⟨?_, ?_, ?_, ?_, ?_⟩⟩ <;>
        simp [mkPokerGame, start_new_hand, resetPlayer, GameState.setSeat,
          GameState.seat, hd, hd1] at * <;> omega
  · have hd1 : (dealer + 1) % 2 = 0 := by omega
    constructor
    · refine ⟨?_, ?_, fun _ => ⟨?_, ?_, ?_, ?_, ?_⟩, fun w hww => ?_⟩ <;>
        simp [mkPokerGame, start_new_hand, resetPlayer, GameState.setSeat,
          GameState.seat, hd, hd1] at * <;> omega
    · intro h1 h2
      refine ⟨?_, ?_, fun _ => ⟨?_, ?_, ?_, ?_, ?_⟩⟩ <;>
        simp [mkPokerGame, start_new_hand, resetPlayer, GameState.setSeat,
          GameState.seat, hd, hd1] at * <;> omega

/-- Master invariant: every state reachable inside a hand satisfies the
structural invariant, and additionally the chip-sign invariant when both
starting stacks cover the big blind. -/
theorem reach_inv {ev : List Card → List Card → Int} {gid : String}
    {uc bc : Int} {dealer : Nat} {deck : List Card} {s : GameState}
    (hr : Reach ev (mkPokerGame gid uc bc dealer deck) s) :
    InvA (uc + bc) s ∧ (20 ≤ uc → 20 ≤ bc → InvB s) := by
  induction hr with
  | start => exact mkPokerGame_inv gid uc bc dealer deck
  | step hr hw hstep ih =>
    obtain ⟨hA, hB⟩ := ih
    obtain ⟨hA2, hBi⟩ := step_inv hA hw hstep
    exact ⟨hA2, fun h1 h2 => hBi (hB h1 h2)⟩

/-! ### Totality of the action entry point

Once the turn check passes, `handle_player_action` never fails: every
verb is applied (or silently ignored), and every later phase produces a
state.  This is the formal content of "an out-of-range raise is never an
error" and of the absence of any hand-over check. -/

lemma determine_winner_isSome {ev : List Card → List Card → Int}
    {s : GameState} (h0 : s.p0.id = "user") (h1 : s.p1.id = "bot") :
    (determine_winner ev s).isSome = true := by
  rw [determine_winner, seatOfId_user h0, seatOfId_bot h0 h1]
  simp only [seat_zero, seat_one]
  split_ifs <;> simp

lemma stageIndex_le {st : String} {k : Nat} (h : stageIndex st = some k) :
    k ≤ 4 := by
  rw [stageIndex] at h
  split_ifs at h <;>
    first
    | (injection h with h2; omega)
    | exact absurd h (by simp)

lemma advance_stage_isSome {ev : List Card → List Card → Int}
    {s : GameState} {k : Nat} (h0 : s.p0.id = "user") (h1 : s.p1.id = "bot")
    (hst : stageIndex s.current_stage = some k) :
    (advance_stage ev s).isSome = true := by
  have hk : k ≤ 4 := stageIndex_le hst
  rw [advance_stage, hst]
  by_cases h4 : 4 ≤ k
  · simp [h4]
  interval_cases k
  · simp [stageOfIndex]
  · simp [stageOfIndex]
  · simp [stageOfIndex]
  · simp only [stageOfIndex]
    norm_num
    exact determine_winner_isSome (by split_ifs <;> simp [h0])
      (by split_ifs <;> simp [h1])

lemma apply_action_fields_zero (s : GameState) (a : String) (m : Int)
    (h01 : s.p1.id ≠ s.p0.id) :
    (apply_action s 0 a m).p0.id = s.p0.id ∧
    (apply_action s 0 a m).p1.id = s.p1.id ∧
    (apply_action s 0 a m).current_stage = s.current_stage ∧
    (apply_action s 0 a m).current_player_id = s.current_player_id := by
  by_cases hf : a = "fold"
  · subst hf
    rw [apply_action_fold]
    simp
  by_cases hc : a = "call"
  · subst hc
    rw [apply_action_call_zero]
    simp
  by_cases hr : a = "raise"
  · subst hr
    rw [apply_action_raise_zero _ _ h01]
    simp
  · rw [apply_action_other _ _ _ hf hc hr]
    simp

lemma apply_action_fields_one (s : GameState) (a : String) (m : Int)
    (h01 : s.p0.id ≠ s.p1.id) :
    (apply_action s 1 a m).p0.id = s.p0.id ∧
    (apply_action s 1 a m).p1.id = s.p1.id ∧
    (apply_action s 1 a m).current_stage = s.current_stage ∧
    (apply_action s 1 a m).current_player_id = s.current_player_id := by
  by_cases hf : a = "fold"
  · subst hf
    rw [apply_action_fold]
    simp
  by_cases hc : a = "call"
  · subst hc
    rw [apply_action_call_one]
    simp
  by_cases hr : a = "raise"
  · subst hr
    rw [apply_action_raise_one _ _ h01]
    simp
  · rw [apply_action_other _ _ _ hf hc hr]
    simp

lemma advance_turn_total {ev : List Card → List Card → Int}
    {sa : GameState} {pid : String}
    (f0 : sa.p0.id = "user") (f1 : sa.p1.id = "bot")
    (f3 : sa.current_player_id = some pid)
    (hpid : pid = "user" ∨ pid = "bot") :
    ∃ x, advance_turn ev sa = some x ∧ x.p0.id = "user" ∧ x.p1.id = "bot" ∧
      (x.current_stage = sa.current_stage ∨ x.current_stage = "showdown") := by
  by_cases hac : activeCount sa = 1
  · have hds : (determine_winner ev
        { sa with current_stage := "showdown" }).isSome = true :=
      determine_winner_isSome (by simpa using f0) (by simpa using f1)
    obtain ⟨w, hw⟩ := Option.isSome_iff_exists.mp hds
    obtain ⟨-, wi0, wi1, wst, -⟩ := determine_winner_spec
      (by simpa using f0) (by simpa using f1) hw
    refine ⟨w, ?_, wi0, wi1, Or.inr (by simpa using wst)⟩
    simp only [advance_turn]
    rw [if_pos hac, hw]
  · simp only [advance_turn]
    rw [if_neg hac, f3]
    rcases hpid with h | h <;> subst h
    · simp only [seatOfId_user f0]
      exact ⟨_, rfl, f0, f1, Or.inl rfl⟩
    · simp only [seatOfId_bot f0 f1]
      exact ⟨_, rfl, f0, f1, Or.inl rfl⟩

/-- Totality: whenever the submitted player exists and it is that
player's turn, `handle_player_action` succeeds, whatever the verb, the
amount and the rest of the state (the hand being over included). -/
lemma handle_player_action_isSome {ev : List Card → List Card → Int}
    {s : GameState} {pid act : String} {amt : Int} {k : Nat}
    (id0 : s.p0.id = "user") (id1 : s.p1.id = "bot")
    (hst : stageIndex s.current_stage = some k)
    (hpid : pid = "user" ∨ pid = "bot")
    (hcp : s.current_player_id = some pid) :
    (handle_player_action ev s pid act amt).isSome = true := by
  have hne : s.p1.id ≠ s.p0.id := by rw [id0, id1]; decide
  rw [handle_player_action]
  rcases hpid with h | h <;> subst h
  · rw [seatOfId_user id0]
    simp only [seat_zero, id0]
    rw [if_neg (by simp [hcp])]
    simp only [if_true, seatOfId_bot id0 id1, seat_one, setSeat_one]
    obtain ⟨f0, f1, f2, f3⟩ := apply_action_fields_zero
      { s with p1 := { s.p1 with last_action := none } } act amt
      (by simpa using hne)
    obtain ⟨x, hx, xi0, xi1, xst⟩ := @advance_turn_total ev _ _
      (f0.trans (by simp [id0])) (f1.trans (by simp [id1]))
      (f3.trans (by simp [hcp])) (Or.inl rfl)
    rw [hx]
    simp only []
    by_cases hov : is_betting_round_over x = true
    · rw [if_pos hov]
      rcases xst with h2 | h2
      · exact advance_stage_isSome xi0 xi1 (by rw [h2, f2]; simpa using hst)
      · exact advance_stage_isSome xi0 xi1 (by rw [h2]; rfl)
    · rw [if_neg hov]
      rfl
  · rw [seatOfId_bot id0 id1]
    simp only [seat_one, id1]
    rw [if_neg (by simp [hcp])]
    rw [show (if ("bot" : String) = "user" then "bot" else "user") = "user"
        from rfl]
    simp only [seatOfId_user id0, seat_zero, setSeat_zero]
    obtain ⟨f0, f1, f2, f3⟩ := apply_action_fields_one
      { s with p0 := { s.p0 with last_action := none } } act amt
      (by simpa using hne.symm)
    obtain ⟨x, hx, xi0, xi1, xst⟩ := @advance_turn_total ev _ _
      (f0.trans (by simp [id0])) (f1.trans (by simp [id1]))
      (f3.trans (by simp [hcp])) (Or.inr rfl)
    rw [hx]
    simp only []
    by_cases hov : is_betting_round_over x = true
    · rw [if_pos hov]
      rcases xst with h2 | h2
      · exact advance_stage_isSome xi0 xi1 (by rw [h2, f2]; simpa using hst)
      · exact advance_stage_isSome xi0 xi1 (by rw [h2]; rfl)
    · rw [if_neg hov]
      rfl

/-! ### End-to-end characterizations of single actions -/

/-- A betting round with both players still in and an unsettled position
(somebody has not acted, or the bets differ) is not over. -/
lemma is_over_false_of_notSettled {s : GameState}
    (nf0 : s.p0.folded = false) (nf1 : s.p1.folded = false)
    (hns : ¬(s.p0.has_acted = true ∧ s.p1.has_acted = true ∧
             s.p0.current_bet = s.p1.current_bet)) :
    is_betting_round_over s = false := by
  rw [Bool.eq_false_iff]
  intro hov
  rw [is_over_char nf0 nf1] at hov
  exact hns ⟨hov.1, hov.2.1, hov.2.2.1.symm⟩

/-- Seat index submitted ids resolve to: seat 0 for `"user"`, seat 1
otherwise (used only to state theorems about the acting seat). -/
def actorSeat (pid : String) : Nat :=
  if pid = "user" then 0 else 1

/-- Complete effect of a fold by the user: the bot is paid the pot, the
winner is set, the stage jumps to showdown and the hand is flagged over.
The evaluator parameter is arbitrary: showdown evaluation never runs. -/
lemma handle_fold_user (ev : List Card → List Card → Int) {s : GameState}
    (amt : Int) (id0 : s.p0.id = "user") (id1 : s.p1.id = "bot")
    (nf1 : s.p1.folded = false)
    (hcp : s.current_player_id = some "user") :
    handle_player_action ev s "user" "fold" amt =
      some { s with
        p0 := { s.p0 with folded := true, last_action := some "Fold" },
        p1 := { s.p1 with chips := s.p1.chips + s.pot, last_action := none },
        current_stage := "showdown",
        winner := some s.p1.id,
        game_over := true } := by
  rw [handle_player_action, seatOfId_user id0]
  simp only [seat_zero, id0]
  rw [if_neg (by simp [hcp])]
  simp only [if_true, seatOfId_bot id0 id1, seat_one, setSeat_one]
  rw [apply_action_fold]
  simp only [seat_zero, setSeat_zero]
  simp only [advance_turn_p0_folded, nf1, determine_winner_user_folded,
    id0, id1]
  simp [is_betting_round_over, activePlayers, nf1, advance_stage, stageIndex]

/-- Complete effect of a fold by the bot, mirror of `handle_fold_user`. -/
lemma handle_fold_bot (ev : List Card → List Card → Int) {s : GameState}
    (amt : Int) (id0 : s.p0.id = "user") (id1 : s.p1.id = "bot")
    (nf0 : s.p0.folded = false)
    (hcp : s.current_player_id = some "bot") :
    handle_player_action ev s "bot" "fold" amt =
      some { s with
        p0 := { s.p0 with chips := s.p0.chips + s.pot, last_action := none },
        p1 := { s.p1 with folded := true, last_action := some "Fold" },
        current_stage := "showdown",
        winner := some s.p0.id,
        game_over := true } := by
  rw [handle_player_action, seatOfId_bot id0 id1]
  simp only [seat_one, id1]
  rw [if_neg (by simp [hcp])]
  rw [show (if ("bot" : String) = "user" then "bot" else "user") = "user"
      from rfl, seatOfId_user id0]
  simp only [seat_zero, setSeat_zero]
  rw [apply_action_fold]
  simp only [seat_one, setSeat_one]
  simp only [advance_turn_p1_folded, nf0, determine_winner_bot_folded,
    id0, id1]
  simp [is_betting_round_over, activePlayers, nf0, advance_stage, stageIndex]

/-- Complete effect of a verb outside fold/call/raise (the literal
`"check"` included): only the other player's `last_action` is cleared and
the turn passes; chips, bets, pot and `has_acted` are untouched.  The
round-completion test still runs; the hypothesis `hov` records that it
does not fire. -/
lemma handle_other_user (ev : List Card → List Card → Int) {s : GameState}
    {act : String} (amt : Int) (id0 : s.p0.id = "user")
    (id1 : s.p1.id = "bot") (nf0 : s.p0.folded = false)
    (nf1 : s.p1.folded = false) (hcp : s.current_player_id = some "user")
    (hf : act ≠ "fold") (hc : act ≠ "call") (hr : act ≠ "raise")
    (hov : is_betting_round_over
      { s with p1 := { s.p1 with last_action := none },
               current_player_id := some s.p1.id } = false) :
    handle_player_action ev s "user" act amt =
      some { s with p1 := { s.p1 with last_action := none },
                    current_player_id := some s.p1.id } := by
  rw [handle_player_action, seatOfId_user id0]
  simp only [seat_zero, id0]
  rw [if_neg (by simp [hcp])]
  simp only [if_true, seatOfId_bot id0 id1, seat_one, setSeat_one]
  rw [apply_action_other _ _ _ hf hc hr]
  simp only [advance_turn_user, nf0, nf1, id0, hcp]
  rw [if_neg (by simpa [nf1] using hov)]

/-- Mirror of `handle_other_user` for the bot seat. -/
lemma handle_other_bot (ev : List Card → List Card → Int) {s : GameState}
    {act : String} (amt : Int) (id0 : s.p0.id = "user")
    (id1 : s.p1.id = "bot") (nf0 : s.p0.folded = false)
    (nf1 : s.p1.folded = false) (hcp : s.current_player_id = some "bot")
    (hf : act ≠ "fold") (hc : act ≠ "call") (hr : act ≠ "raise")
    (hov : is_betting_round_over
      { s with p0 := { s.p0 with last_action := none },
               current_player_id := some s.p0.id } = false) :
    handle_player_action ev s "bot" act amt =
      some { s with p0 := { s.p0 with last_action := none },
                    current_player_id := some s.p0.id } := by
  rw [handle_player_action, seatOfId_bot id0 id1]
  simp only [seat_one, id1]
  rw [if_neg (by simp [hcp])]
  rw [show (if ("bot" : String) = "user" then "bot" else "user") = "user"
      from rfl, seatOfId_user id0]
  simp only [seat_zero, setSeat_zero]
  rw [apply_action_other _ _ _ hf hc hr]
  simp only [advance_turn_bot, nf0, nf1, id0, id1, hcp]
  rw [if_neg (by simpa [nf0, id0] using hov)]

/-! ### Concrete hands used as witnesses and counterexamples

`ev0` is a stand-in evaluator (no trace below ever reaches a showdown
comparison), `stdDeck` stands for one possible shuffle.  `gameStart` is
the spec's scenario: stacks 1000/1000, blinds 10/20, dealer seat 0. -/

def ev0 : List Card → List Card → Int := fun _ _ => 0

def gameStart : GameState := mkPokerGame "demo" 1000 1000 0 stdDeck

def afterUserCall : GameState :=
  (handle_player_action ev0 gameStart "user" "call" 0).getD gameStart

def afterBotCheck : GameState :=
  (handle_player_action ev0 afterUserCall "bot" "call" 0).getD gameStart

def afterUserFold : GameState :=
  (handle_player_action ev0 gameStart "user" "fold" 0).getD gameStart

def shortStackStart : GameState := mkPokerGame "demo" 15 1000 0 stdDeck

def afterShortAllIn : GameState :=
  (handle_player_action ev0 shortStackStart "user" "raise" 1000).getD
    shortStackStart

def deepStart : GameState := mkPokerGame "demo" 10000 10000 0 stdDeck

def afterRaise1 : GameState :=
  (handle_player_action ev0 deepStart "user" "raise" 40).getD deepStart

def afterRaise2 : GameState :=
  (handle_player_action ev0 afterRaise1 "bot" "raise" 80).getD deepStart

def afterRaise3 : GameState :=
  (handle_player_action ev0 afterRaise2 "user" "raise" 160).getD deepStart

def afterRaise4 : GameState :=
  (handle_player_action ev0 afterRaise3 "bot" "raise" 320).getD deepStart


/-! ### Claim C1 — chip conservation -/

/-- Claim C1, as stated, is false: already at hand start the quantity
`Σ chips + Σ current_bet + pot` exceeds the starting total by the posted
blinds, because the engine adds every bet to `pot` at once while
`current_bet` still records it (2030 ≠ 2000 for 1000/1000 stacks). -/
theorem C1_counterexample :
    Reach ev0 gameStart gameStart ∧
    gameStart.p0.chips + gameStart.p1.chips +
      (gameStart.p0.current_bet + gameStart.p1.current_bet) +
      gameStart.pot ≠ 1000 + 1000 :=
  ⟨Reach.start, by decide⟩

/-- Claim C1, amended: `pot` already contains both live bets, so the
conserved quantity is `Σ chips + pot`; it equals the starting total in
every reachable state of the hand while the hand is open.  The single
pot-distribution step moves the pot onto the winner's stack (half each
on a tie), after which `Σ chips` equals the starting total — except that
a tie with an odd pot drops one chip to floor division. -/
theorem C1_chip_conservation {ev : List Card → List Card → Int}
    {gid : String} {uc bc : Int} {dealer : Nat} {deck : List Card}
    {s : GameState} (hr : Reach ev (mkPokerGame gid uc bc dealer deck) s) :
    (s.winner = none → s.p0.chips + s.p1.chips + s.pot = uc + bc) ∧
    (∀ w, s.winner = some w → w ≠ "tie" →
      s.p0.chips + s.p1.chips = uc + bc) ∧
    (s.winner = some "tie" →
      s.p0.chips + s.p1.chips = uc + bc - Int.fmod s.pot 2) := by
  obtain ⟨hA, -⟩ := reach_inv hr
  exact ⟨fun hw => (hA.openInv hw).consv,
    fun w hw hwt => (hA.closedInv w hw).sumWin hwt,
    fun hw => (hA.closedInv "tie" hw).sumTie rfl⟩

/-- Witness for `C1_chip_conservation` at the scenario hand. -/
theorem C1_chip_conservation_witness :
    gameStart.winner = none ∧
    gameStart.p0.chips + gameStart.p1.chips + gameStart.pot = 1000 + 1000 :=
  ⟨by decide, (C1_chip_conservation
    (@Reach.start ev0 (mkPokerGame "demo" 1000 1000 0 stdDeck))).1
    (by decide)⟩

/-! ### Claim C2 — raise clamping bounds -/

/-- Modelled from the spec (claim C2): the claimed minimum raise target,
`max(big_blind, to_call * 2)`. -/
def spec_min_raise (big_blind to_call : Int) : Int :=
  max big_blind (to_call * 2)

/-- Modelled from the spec (claim C2): the claimed maximum raise target,
`min(current_bet + chips, current_bet + to_call + pot_now * mult)`. -/
def spec_max_raise (current_bet chips to_call pot_now mult : Int) : Int :=
  min (current_bet + chips) (current_bet + to_call + pot_now * mult)

/-- Modelled from the spec (claim C2): the requested amount clamped into
the claimed range. -/
def spec_clamped (req big_blind current_bet chips to_call pot_now mult :
    Int) : Int :=
  min (max req (spec_min_raise big_blind to_call))
    (spec_max_raise current_bet chips to_call pot_now mult)

/-- Claim C2, as stated, is false: at the scenario hand start the user
requests a raise to 25.  Under the claim's bounds (`min_raise =
max(20, 2*10) = 20`, any pot-based cap well above 25) the request is in
range and must be applied as 25; the engine instead uses
`min_raise = current_bet_to_match * 2 = 40` and applies 40. -/
theorem C2_counterexample :
    (handle_player_action ev0 gameStart "user" "raise" 25).map
      (fun t => t.p0.current_bet) = some 40 ∧
    spec_clamped 25 gameStart.big_blind gameStart.p0.current_bet
      gameStart.p0.chips
      (gameStart.current_bet_to_match - gameStart.p0.current_bet)
      (gameStart.pot + gameStart.p0.current_bet + gameStart.p1.current_bet)
      2 = 25 ∧
    (40 : Int) ≠ 25 :=
  ⟨by decide, by decide, by decide⟩

/-- Claim C2, amended: the engine clamps the requested raise target into
`[current_bet_to_match * 2, chips + current_bet]` — the lower bound is
applied first, then the stack cap, so the stack cap wins when it is
below the minimum; the big blind and the pot play no role.  A raise is
indeed never rejected: the action always succeeds and the actor's new
bet is exactly the clamped target. -/
theorem C2_raise_clamped {ev : List Card → List Card → Int}
    {s : GameState} {pid : String} {amt : Int}
    (id0 : s.p0.id = "user") (id1 : s.p1.id = "bot")
    (nf0 : s.p0.folded = false) (nf1 : s.p1.folded = false)
    (hcp : s.current_player_id = some pid)
    (hpid : pid = "user" ∨ pid = "bot") :
    ∃ t, handle_player_action ev s pid "raise" amt = some t ∧
      (t.seat (actorSeat pid)).current_bet =
        min (max amt (s.current_bet_to_match * 2))
          ((s.seat (actorSeat pid)).chips +
           (s.seat (actorSeat pid)).current_bet) := by
  rcases hpid with h | h <;> subst h
  · rw [handle_player_action, seatOfId_user id0]
    simp only [seat_zero, id0]
    rw [if_neg (by simp [hcp])]
    simp only [if_true, seatOfId_bot id0 id1, seat_one, setSeat_one]
    rw [apply_action_raise_zero _ _ (by rw [id0, id1]; decide)]
    simp only [advance_turn_user, nf0, nf1, id0, hcp]
    rw [if_neg (by simp [is_betting_round_over, activePlayers, nf0, nf1])]
    refine ⟨_, rfl, ?_⟩
    have ha : actorSeat "user" = 0 := rfl
    rw [ha]
    simp only [seat_zero]
    split_ifs <;> omega
  · rw [handle_player_action, seatOfId_bot id0 id1]
    simp only [seat_one, id1]
    rw [if_neg (by simp [hcp])]
    rw [show (if ("bot" : String) = "user" then "bot" else "user") = "user"
        from rfl, seatOfId_user id0]
    simp only [seat_zero, setSeat_zero]
    rw [apply_action_raise_one _ _ (by rw [id0, id1]; decide)]
    simp only [advance_turn_bot, nf0, nf1, id0, id1, hcp]
    rw [if_neg (by simp [is_betting_round_over, activePlayers, nf0, nf1])]
    refine ⟨_, rfl, ?_⟩
    have : actorSeat "bot" = 1 := by decide
    rw [this]
    simp only [seat_one]
    split_ifs <;> omega

/-! ### Claim C3 — fold ends the hand -/

/-- Claim C3, as stated, is false in its payout clause: when the user
folds at the scenario hand start, the bot's stack rises from 980 to 1010
— exactly the pot of 30, which already contains both committed bets —
not to 1040 as "pot plus both players' current bets" would demand. -/
theorem C3_counterexample :
    afterUserFold.winner = some "bot" ∧
    afterUserFold.p1.chips = 1010 ∧
    gameStart.p1.chips = 980 ∧ gameStart.pot = 30 ∧
    gameStart.p0.current_bet + gameStart.p1.current_bet = 30 ∧
    (1010 : Int) ≠ 980 + (30 + 30) := by
  decide

/-- Claim C3, amended: a fold with both players still in ends the hand
immediately — the winner is set to the remaining player, the stage jumps
to showdown, the hand is flagged over, and the remaining player's chips
increase by exactly the pot (which already includes both committed
bets).  The result does not depend on the evaluator: the hand evaluator
is never consulted on a fold. -/
theorem C3_fold_ends_hand {s : GameState} {pid : String} {amt : Int}
    (id0 : s.p0.id = "user") (id1 : s.p1.id = "bot")
    (nf0 : s.p0.folded = false) (nf1 : s.p1.folded = false)
    (hcp : s.current_player_id = some pid)
    (hpid : pid = "user" ∨ pid = "bot") :
    ∃ t, (∀ ev : List Card → List Card → Int,
        handle_player_action ev s pid "fold" amt = some t) ∧
      t.winner = some ((s.seat (actorSeat pid + 1)).id) ∧
      (t.seat (actorSeat pid + 1)).chips =
        (s.seat (actorSeat pid + 1)).chips + s.pot ∧
      (t.seat (actorSeat pid)).chips = (s.seat (actorSeat pid)).chips ∧
      t.current_stage = "showdown" ∧ t.game_over = true ∧ t.pot = s.pot := by
  rcases hpid with h | h <;> subst h
  · exact ⟨_, fun ev => handle_fold_user ev amt id0 id1 nf1 hcp,
      by simp [actorSeat], by simp [actorSeat], by simp [actorSeat],
      rfl, rfl, rfl⟩
  · exact ⟨_, fun ev => handle_fold_bot ev amt id0 id1 nf0 hcp,
      by simp [actorSeat, GameState.seat], by simp [actorSeat, GameState.seat],
      by simp [actorSeat, GameState.seat], rfl, rfl, rfl⟩

/-- Witness for `C3_fold_ends_hand` at the scenario hand. -/
theorem C3_fold_ends_hand_witness :
    ∃ t, (∀ ev : List Card → List Card → Int,
        handle_player_action ev gameStart "user" "fold" 0 = some t) ∧
      t.winner = some ((gameStart.seat (actorSeat "user" + 1)).id) ∧
      (t.seat (actorSeat "user" + 1)).chips =
        (gameStart.seat (actorSeat "user" + 1)).chips + gameStart.pot ∧
      (t.seat (actorSeat "user")).chips =
        (gameStart.seat (actorSeat "user")).chips ∧
      t.current_stage = "showdown" ∧ t.game_over = true ∧
      t.pot = gameStart.pot :=
  C3_fold_ends_hand (by decide) (by decide) (by decide) (by decide)
    (by decide) (Or.inl rfl)

/-! ### Claim C4 — InvalidTurn and GameOver rejection -/

/-- Claim C4's GameOver half is false: after the user's fold has ended
the hand (`winner = "bot"`), the engine happily processes another action
from the same seat — the stale call moves 10 more chips and the fold
branch of the winner routine pays the pot out a second time, raising the
bot to 1050.  No error is raised and the state mutates. -/
theorem C4_counterexample :
    Reach ev0 gameStart afterUserFold ∧
    afterUserFold.winner = some "bot" ∧
    afterUserFold.p1.chips = 1010 ∧
    (handle_player_action ev0 afterUserFold "user" "call" 0).map
      (fun t => t.p1.chips) = some 1050 :=
  ⟨Reach.step Reach.start (by decide)
    (show handle_player_action ev0 gameStart "user" "fold" 0 =
      some afterUserFold from rfl), by decide, by decide, by decide⟩

/-- Claim C4, amended: the entry point fails exactly when the submitted
player id is unknown or is not the seat to act; the raise happens before
any mutation, so a rejected action leaves the state untouched.  There is
no GameOver condition: `winner` is never consulted, so an action
submitted with the correct seat after the hand is over is processed
normally (see the counterexample for the resulting double payout). -/
theorem C4_fails_only_on_wrong_turn {ev : List Card → List Card → Int}
    {s : GameState} {pid act : String} {amt : Int} {k : Nat}
    (id0 : s.p0.id = "user") (id1 : s.p1.id = "bot")
    (hst : stageIndex s.current_stage = some k) :
    handle_player_action ev s pid act amt = none ↔
      ¬((pid = "user" ∨ pid = "bot") ∧
        s.current_player_id = some pid) := by
  constructor
  · intro hn hyes
    obtain ⟨hpid, hcp⟩ := hyes
    have hsome := @handle_player_action_isSome ev s pid act amt k
      id0 id1 hst hpid hcp
    rw [hn] at hsome
    simp at hsome
  · intro hno
    by_cases hpu : pid = "user"
    · subst hpu
      have hcp : ¬(s.current_player_id = some "user") :=
        fun h => hno ⟨Or.inl rfl, h⟩
      rw [handle_player_action, seatOfId_user id0]
      simp only [seat_zero, id0]
      rw [if_pos (fun h => hcp h.symm)]
    · by_cases hpb : pid = "bot"
      · subst hpb
        have hcp : ¬(s.current_player_id = some "bot") :=
          fun h => hno ⟨Or.inr rfl, h⟩
        rw [handle_player_action, seatOfId_bot id0 id1]
        simp only [seat_one, id1]
        rw [if_pos (fun h => hcp h.symm)]
      · rw [handle_player_action, seatOfId_none id0 id1 hpu hpb]

/-- Witness for `C4_fails_only_on_wrong_turn`: at the scenario hand
start the bot is not to act, and a bot action is rejected. -/
theorem C4_fails_only_on_wrong_turn_witness :
    handle_player_action ev0 gameStart "bot" "call" 0 = none :=
  (C4_fails_only_on_wrong_turn (by decide) (by decide)
    (show stageIndex gameStart.current_stage = some 0 by decide)).mpr
    (by decide)

/-! ### Claim C5 — bet equalization -/

/-- Claim C5 is false exactly in the case it singles out: starting from
stacks 15/1000, the user's over-stack raise request of 1000 is clamped
to the 15-chip all-in, and `current_bet_to_match` is set to 15 even
though the non-folded bot's bet is still 20.  The round is open (the bot
has the action), the hand is not over, yet `current_bet_to_match` is
below the maximum bet among non-folded players. -/
theorem C5_counterexample :
    Reach ev0 shortStackStart afterShortAllIn ∧
    afterShortAllIn.winner = none ∧
    is_betting_round_over afterShortAllIn = false ∧
    afterShortAllIn.p0.folded = false ∧
    afterShortAllIn.p1.folded = false ∧
    afterShortAllIn.current_bet_to_match = 15 ∧
    afterShortAllIn.p1.current_bet = 20 ∧
    ¬(afterShortAllIn.current_bet_to_match =
      max afterShortAllIn.p0.current_bet afterShortAllIn.p1.current_bet) :=
  ⟨Reach.step Reach.start (by decide)
    (show handle_player_action ev0 shortStackStart "user" "raise" 1000 =
      some afterShortAllIn from rfl),
    by decide, by decide, by decide, by decide, by decide, by decide,
    by decide⟩

/-- Claim C5, amended: in every reachable open state (hand not over, so
both players are still un-folded), `current_bet_to_match` is at most the
maximum `current_bet` of the two players; equality can fail after a
raise clamped down to an all-in below the amount to match, which resets
`current_bet_to_match` to the short all-in total.  Starting stacks are
assumed to cover the big blind. -/
theorem C5_cbtm_le_max {ev : List Card → List Card → Int} {gid : String}
    {uc bc : Int} {dealer : Nat} {deck : List Card} {s : GameState}
    (h1 : 20 ≤ uc) (h2 : 20 ≤ bc)
    (hr : Reach ev (mkPokerGame gid uc bc dealer deck) s)
    (hw : s.winner = none) :
    s.p0.folded = false ∧ s.p1.folded = false ∧
    s.current_bet_to_match ≤ max s.p0.current_bet s.p1.current_bet := by
  obtain ⟨hA, hB⟩ := reach_inv hr
  exact ⟨(hA.openInv hw).nf0, (hA.openInv hw).nf1,
    ((hB h1 h2).openB hw).cbtmLe⟩

/-- Witness for `C5_cbtm_le_max` at the scenario hand start. -/
theorem C5_cbtm_le_max_witness :
    gameStart.winner = none ∧
    (gameStart.p0.folded = false ∧ gameStart.p1.folded = false ∧
     gameStart.current_bet_to_match ≤
       max gameStart.p0.current_bet gameStart.p1.current_bet) :=
  ⟨by decide, C5_cbtm_le_max (by decide) (by decide)
    (@Reach.start ev0 (mkPokerGame "demo" 1000 1000 0 stdDeck))
    (by decide)⟩

/-! ### Claim C6 — board cardinality -/

/-- Claim C6's "5 cards in Showdown" is false: a pre-flop fold jumps the
stage straight to showdown with an empty board. -/
theorem C6_counterexample :
    Reach ev0 gameStart afterUserFold ∧
    afterUserFold.current_stage = "showdown" ∧
    afterUserFold.community_cards.length = 0 ∧ (0 : Nat) ≠ 5 :=
  ⟨Reach.step Reach.start (by decide)
    (show handle_player_action ev0 gameStart "user" "fold" 0 =
      some afterUserFold from rfl), by decide, by decide, by decide⟩

/-- Claim C6, amended: while the hand is open the board has exactly
0/3/4/5 cards in PreFlop/Flop/Turn/River (and the stage is one of those
four); once a winner is set the stage is Showdown and the board keeps
the count of the street where the hand ended — 5 after a completed
river, but 0, 3 or 4 when a fold ended the hand earlier. -/
theorem C6_board_cardinality {ev : List Card → List Card → Int}
    {gid : String} {uc bc : Int} {dealer : Nat} {deck : List Card}
    {s : GameState} (hr : Reach ev (mkPokerGame gid uc bc dealer deck) s) :
    (s.winner = none →
      (s.current_stage = "pre-flop" ∧ s.community_cards.length = 0) ∨
      (s.current_stage = "flop" ∧ s.community_cards.length = 3) ∨
      (s.current_stage = "turn" ∧ s.community_cards.length = 4) ∨
      (s.current_stage = "river" ∧ s.community_cards.length = 5)) ∧
    (∀ w, s.winner = some w → s.current_stage = "showdown" ∧
      (s.community_cards.length = 0 ∨ s.community_cards.length = 3 ∨
       s.community_cards.length = 4 ∨ s.community_cards.length = 5)) := by
  obtain ⟨hA, -⟩ := reach_inv hr
  exact ⟨fun hw => (hA.openInv hw).stageBoard,
    fun w hw => ⟨(hA.closedInv w hw).stage, (hA.closedInv w hw).board⟩⟩

/-- Witness for `C6_board_cardinality` at the scenario hand start. -/
theorem C6_board_cardinality_witness :
    gameStart.winner = none ∧
    ((gameStart.current_stage = "pre-flop" ∧
      gameStart.community_cards.length = 0) ∨
     (gameStart.current_stage = "flop" ∧
      gameStart.community_cards.length = 3) ∨
     (gameStart.current_stage = "turn" ∧
      gameStart.community_cards.length = 4) ∨
     (gameStart.current_stage = "river" ∧
      gameStart.community_cards.length = 5)) :=
  ⟨by decide, (C6_board_cardinality
    (@Reach.start ev0 (mkPokerGame "demo" 1000 1000 0 stdDeck))).1
    (by decide)⟩

/-! ### Claim C7 — per-street raise counter and cap -/

/-- Claim C7 is false: the engine's `GameState` keeps no raise counter
and enforces no cap.  With deep stacks, a fourth raise in the same
pre-flop street — one past the configured `MAX_RAISES_PER_STREET = 3` of
the training environment — is applied effectively (the amount to match
jumps from 160 to 320) instead of being refused. -/
theorem C7_counterexample :
    Reach ev0 deepStart afterRaise3 ∧
    afterRaise3.current_stage = "pre-flop" ∧
    afterRaise3.current_bet_to_match = 160 ∧
    handle_player_action ev0 afterRaise3 "bot" "raise" 320 =
      some afterRaise4 ∧
    afterRaise4.current_bet_to_match = 320 ∧
    afterRaise4.current_stage = "pre-flop" ∧
    afterRaise4.winner = none ∧
    MAX_RAISES_PER_STREET = 3 :=
  ⟨Reach.step (Reach.step (Reach.step Reach.start (by decide)
      (show handle_player_action ev0 deepStart "user" "raise" 40 =
        some afterRaise1 from rfl)) (by decide)
      (show handle_player_action ev0 afterRaise1 "bot" "raise" 80 =
        some afterRaise2 from rfl)) (by decide)
      (show handle_player_action ev0 afterRaise2 "user" "raise" 160 =
        some afterRaise3 from rfl),
    by decide, by decide, rfl, by decide, by decide, by decide, rfl⟩

/-- Claim C7, amended: the engine maintains no per-street raise counter
and refuses no raise; the cap (`MAX_RAISES_PER_STREET = 3` per street)
exists only in the training environment's action-selection layer, which
simply stops emitting raise verbs.  Four successive raises in the same
pre-flop street are all applied effectively: the amount to match climbs
40 → 80 → 160 → 320 and the round is still open afterwards. -/
theorem C7_no_engine_raise_cap :
    Reach ev0 deepStart afterRaise4 ∧
    is_betting_round_over afterRaise4 = false ∧
    afterRaise1.current_bet_to_match = 40 ∧
    afterRaise2.current_bet_to_match = 80 ∧
    afterRaise3.current_bet_to_match = 160 ∧
    afterRaise4.current_bet_to_match = 320 ∧
    afterRaise4.current_stage = "pre-flop" ∧
    afterRaise4.p0.has_acted = false ∧
    afterRaise4.winner = none ∧
    MAX_RAISES_PER_STREET = 3 :=
  ⟨Reach.step (Reach.step (Reach.step (Reach.step Reach.start (by decide)
      (show handle_player_action ev0 deepStart "user" "raise" 40 =
        some afterRaise1 from rfl)) (by decide)
      (show handle_player_action ev0 afterRaise1 "bot" "raise" 80 =
        some afterRaise2 from rfl)) (by decide)
      (show handle_player_action ev0 afterRaise2 "user" "raise" 160 =
        some afterRaise3 from rfl)) (by decide)
      (show handle_player_action ev0 afterRaise3 "bot" "raise" 320 =
        some afterRaise4 from rfl),
    by decide, by decide, by decide, by decide, by decide, by decide,
    by decide, by decide, rfl⟩

/-! ### Claim C8 — the blinds/call/check scenario -/

/-- Claim C8 holds, with the check submitted through the engine's check
path: the `"call"` verb with nothing to pay, which the engine itself
labels `Check` (a literal `"check"` verb is a silent no-op, see C10).
Stacks 1000/1000, blinds 10/20, dealer seat 0: after the deal seat 0
(small blind) has 990/10, seat 1 has 980/20, pot 30, pre-flop, seat 0 to
act; seat 0's call leaves the round open on the big-blind option; seat
1's check closes it — flop, pot still 40 (bets were already in it),
amount to match 0, three board cards, dealer seat 0 to act. -/
theorem C8_scenario :
    gameStart.p0.chips = 990 ∧ gameStart.p0.current_bet = 10 ∧
    gameStart.p1.chips = 980 ∧ gameStart.p1.current_bet = 20 ∧
    gameStart.pot = 30 ∧ gameStart.current_stage = "pre-flop" ∧
    gameStart.current_player_id = some "user" ∧
    gameStart.dealer_position = 0 ∧
    handle_player_action ev0 gameStart "user" "call" 0 =
      some afterUserCall ∧
    afterUserCall.p0.chips = 980 ∧ afterUserCall.p0.current_bet = 20 ∧
    afterUserCall.pot = 40 ∧
    afterUserCall.current_stage = "pre-flop" ∧
    afterUserCall.winner = none ∧
    is_betting_round_over afterUserCall = false ∧
    afterUserCall.current_player_id = some "bot" ∧
    handle_player_action ev0 afterUserCall "bot" "call" 0 =
      some afterBotCheck ∧
    afterBotCheck.p1.last_action = some "Check" ∧
    afterBotCheck.current_stage = "flop" ∧
    afterBotCheck.pot = 40 ∧
    afterBotCheck.current_bet_to_match = 0 ∧
    afterBotCheck.community_cards.length = 3 ∧
    afterBotCheck.current_player_id = some "user" := by
  refine ⟨?_, ?_, ?_, ?_, ?_, ?_, ?_, ?_, rfl, ?_, ?_, ?_, ?_, ?_, ?_, ?_,
    rfl, ?_, ?_, ?_, ?_, ?_, ?_⟩ <;> decide

/-! ### Claim C9 — initialization validation and chip non-negativity -/

/-- Claim C9's validation clause is false: hand initialization performs
no input validation at all.  A 5-chip stack is accepted and the small
blind drives it to −5; even a negative starting stack is accepted
without failure. -/
theorem C9_counterexample :
    (mkPokerGame "demo" 5 1000 0 stdDeck).p0.chips = -5 ∧
    ¬(0 ≤ (mkPokerGame "demo" 5 1000 0 stdDeck).p0.chips) ∧
    (mkPokerGame "demo" (-50) 1000 0 stdDeck).p0.chips = -60 := by
  decide

/-- Claim C9, amended: initialization never fails — blinds are posted
unconditionally and a stack smaller than its blind goes negative.  When
both starting stacks cover the big blind, both stacks are non-negative
after hand start and stay non-negative after every applied action,
including the pot distribution. -/
theorem C9_chips_nonneg {ev : List Card → List Card → Int} {gid : String}
    {uc bc : Int} {dealer : Nat} {deck : List Card} {s : GameState}
    (h1 : 20 ≤ uc) (h2 : 20 ≤ bc)
    (hr : Reach ev (mkPokerGame gid uc bc dealer deck) s) :
    0 ≤ s.p0.chips ∧ 0 ≤ s.p1.chips := by
  obtain ⟨-, hB⟩ := reach_inv hr
  exact ⟨(hB h1 h2).chips0, (hB h1 h2).chips1⟩

/-- Witness for `C9_chips_nonneg` at the scenario hand start. -/
theorem C9_chips_nonneg_witness :
    0 ≤ gameStart.p0.chips ∧ 0 ≤ gameStart.p1.chips :=
  C9_chips_nonneg (by decide) (by decide)
    (@Reach.start ev0 (mkPokerGame "demo" 1000 1000 0 stdDeck))

/-! ### Claim C10 — unknown verbs, including the literal "check" -/

/-- Claim C10 holds: a verb outside fold/call/raise — the literal
`"check"` included — matches no branch of the action handler, so chips,
bets, `has_acted` and the pot are untouched (only the other player's
`last_action` is cleared); the turn still advances to the other seat and
the round-completion test still runs (in a reachable open round it
cannot fire, since nobody's position is settled).  In particular the
actor's `has_acted` keeps its value: a player that only ever submits
`"check"` never has `has_acted` set, so the round cannot close on
checks. -/
theorem C10_unmatched_verb_noop {ev : List Card → List Card → Int}
    {gid : String} {uc bc : Int} {dealer : Nat} {deck : List Card}
    {s : GameState} {pid act : String} {amt : Int}
    (hr : Reach ev (mkPokerGame gid uc bc dealer deck) s)
    (hw : s.winner = none)
    (hcp : s.current_player_id = some pid)
    (hpid : pid = "user" ∨ pid = "bot")
    (hf : act ≠ "fold") (hc : act ≠ "call") (hra : act ≠ "raise") :
    ∃ t, handle_player_action ev s pid act amt = some t ∧
      t.p0.chips = s.p0.chips ∧ t.p1.chips = s.p1.chips ∧
      t.p0.current_bet = s.p0.current_bet ∧
      t.p1.current_bet = s.p1.current_bet ∧
      t.p0.has_acted = s.p0.has_acted ∧
      t.p1.has_acted = s.p1.has_acted ∧
      t.pot = s.pot ∧ t.current_stage = s.current_stage ∧
      t.community_cards = s.community_cards ∧ t.winner = none ∧
      t.current_player_id = some ((s.seat (actorSeat pid + 1)).id) := by
  obtain ⟨hA, -⟩ := reach_inv hr
  obtain ⟨nf0, nf1, -, -, hns⟩ := hA.openInv hw
  rcases hpid with h | h <;> subst h
  · have hov : is_betting_round_over
        { s with p1 := { s.p1 with last_action := none },
                 current_player_id := some s.p1.id } = false :=
      is_over_false_of_notSettled (by simpa using nf0) (by simpa using nf1)
        (by simpa using hns)
    exact ⟨_, handle_other_user ev amt hA.id0 hA.id1 nf0 nf1 hcp hf hc hra
        hov,
      rfl, rfl, rfl, rfl, rfl, rfl, rfl, rfl, rfl, hw,
      by simp [actorSeat]⟩
  · have hov : is_betting_round_over
        { s with p0 := { s.p0 with last_action := none },
                 current_player_id := some s.p0.id } = false :=
      is_over_false_of_notSettled (by simpa using nf0) (by simpa using nf1)
        (by simpa using hns)
    exact ⟨_, handle_other_bot ev amt hA.id0 hA.id1 nf0 nf1 hcp hf hc hra
        hov,
      rfl, rfl, rfl, rfl, rfl, rfl, rfl, rfl, rfl, hw,
      by simp [actorSeat, GameState.seat]⟩

/-- Witness for `C10_unmatched_verb_noop`: the literal `"check"` at the
scenario hand start. -/
theorem C10_unmatched_verb_noop_witness :
    ∃ t, handle_player_action ev0 gameStart "user" "check" 0 = some t ∧
      t.p0.chips = gameStart.p0.chips ∧ t.p1.chips = gameStart.p1.chips ∧
      t.p0.current_bet = gameStart.p0.current_bet ∧
      t.p1.current_bet = gameStart.p1.current_bet ∧
      t.p0.has_acted = gameStart.p0.has_acted ∧
      t.p1.has_acted = gameStart.p1.has_acted ∧
      t.pot = gameStart.pot ∧
      t.current_stage = gameStart.current_stage ∧
      t.community_cards = gameStart.community_cards ∧ t.winner = none ∧
      t.current_player_id =
        some ((gameStart.seat (actorSeat "user" + 1)).id) :=
  C10_unmatched_verb_noop
    (@Reach.start ev0 (mkPokerGame "demo" 1000 1000 0 stdDeck))
    (by decide) (by decide) (Or.inl rfl) (by decide) (by decide)
    (by decide)

/-- Witness for `C2_raise_clamped`: the raise request of 25 at the
scenario hand start is clamped up to 40. -/
theorem C2_raise_clamped_witness :
    ∃ t, handle_player_action ev0 gameStart "user" "raise" 25 = some t ∧
      (t.seat (actorSeat "user")).current_bet =
        min (max 25 (gameStart.current_bet_to_match * 2))
          ((gameStart.seat (actorSeat "user")).chips +
           (gameStart.seat (actorSeat "user")).current_bet) :=
  C2_raise_clamped (by decide) (by decide) (by decide) (by decide)
    (by decide) (Or.inl rfl)
